import Mathlib

/-!
Verification of the batch-scan orchestration core of the ITS_MY_CHAN backend
(`Backend/app/services/scan_service.py` together with the data shapes of
`Backend/app/models/schemas.py`).

The Python code is shallowly embedded as follows.

* Pure functions (`filter_buy_points`, `get_stock_list`, `get_stocks_by_boards`,
  the regex tag extraction) become Lean functions over the same data.
* The database catalog consulted by `get_all_stocks` is modelled as an
  `Option (List String)`: `some rows` is a reachable database, `none` is the
  exception path of `get_all_stocks` (which returns `[]`).
* `datetime` values are modelled as `Int` seconds on a linear clock;
  `timedelta(days = d)` is `d * 86400` seconds, and Python's comparison of
  naive `datetime`s coincides with the integer comparison.
  `datetime.strptime` with the fixed format `"%Y/%m/%d %H:%M"` (raising
  `ValueError` on mismatch) is abstracted as a parameter
  `parse : String → Option Int`; the filter logic only ever consumes its
  result through the single comparison `bsp_time >= cutoff_time`.
* Numeric payload fields that the scanned logic never inspects
  (`value : float`, `bsp_value : float`) are carried as `Int`.
* The concurrent scheduler `ScanService._run_scan`, the worker body
  `scan_single_stock` and the external `cancel_scan` entry point are embedded
  as a labelled transition system `Step` on `SchedState`: every
  `with task.lock:` critical section of the source is one atomic transition,
  and lock-free reads/writes are split into separate transitions so that all
  thread interleavings of the source are covered.
-/

namespace ScanServiceModel

/-- Task lifecycle states, exactly the strings used by `scan_service.py`:
`"running"`, `"completed"`, `"cancelled"`, `"error"`. -/
inductive Status where
  | running
  | completed
  | cancelled
  | error
deriving DecidableEq, Repr

/-- `schemas.ScanResultItem`: one decision point reported for one instrument.
`bsp_value` is a float in the source; the scan core never computes with it,
so it is carried as `Int`. -/
structure ScanResultItem where
  code : String
  name : Option String
  bsp_type : String
  bsp_time : String
  bsp_value : Int
  is_buy : Bool
  kline_type : String
deriving DecidableEq, Repr

/-- `schemas.BSPoint`: a raw decision point produced by the analysis engine
(`ChanService`). `type` is the raw, possibly multi-tag string such as
`"[<BSP_TYPE.T1P: '1p'>, <BSP_TYPE.T2: '2'>]"`. `value` is a float in the
source, carried as `Int` (never inspected by the filter). -/
structure BSPoint where
  type : String
  time : String
  value : Int
  klu_idx : Int
  is_buy : Bool
deriving DecidableEq, Repr

/-- The single-quote character, written via its code point. -/
def quoteChar : Char := Char.ofNat 39

/-- Model of `re.findall(r"'([^']+)'", s)` over the character list of `s`:
scan left to right; a quote opens a candidate match, the following characters
up to the next quote are the capture, which succeeds only if non-empty (the
regex requires `[^']+`); on an empty capture the first quote is abandoned and
the second quote starts a new candidate (regex backtracking); a quote with no
closing quote yields no further matches. The accumulator `buf` holds the
reversed pending capture while inside a candidate (`none` = outside). -/
def findallQuoted : List Char → Option (List Char) → List String
  | [], _ => []
  | c :: rest, none =>
      if c = quoteChar then findallQuoted rest (some [])
      else findallQuoted rest none
  | c :: rest, some buf =>
      if c = quoteChar then
        if buf.isEmpty then findallQuoted rest (some [])
        else String.mk buf.reverse :: findallQuoted rest none
      else findallQuoted rest (some (c :: buf))

/-- Tag unpacking in `ScanService.filter_buy_points` (lines 805–810):
`matches = re.findall(r"'([^']+)'", str(raw_type))`; if the regex found
anything those captures are the tag values, otherwise the raw string itself
is the single tag value. -/
def extractTypeValues (raw : String) : List String :=
  let ms := findallQuoted raw.data none
  if ms.isEmpty then [raw] else ms

/-- The tag rewrite of `filter_buy_points` (lines 820–830), applied to an item
whose tag set matched: with several packed tag values, `bsp.type` becomes the
first tag of the caller's `bsp_types` order that occurs among the item's
values (`for t in bsp_types: if t in bsp_type_values: bsp.type = t; break`);
with a single value, `bsp.type` becomes that value. -/
def rewriteType (bsp_types : List String) (bsp : BSPoint) : BSPoint :=
  let vals := extractTypeValues bsp.type
  if 1 < vals.length then
    match bsp_types.find? (fun t => vals.contains t) with
    | some t => { bsp with type := t }
    | none => bsp
  else
    { bsp with type := vals.headD bsp.type }

/-- `ScanService.filter_buy_points` (lines 773–865), with the clock passed in:
`now` is `datetime.now()` in seconds and `parse` is
`datetime.strptime(·, "%Y/%m/%d %H:%M")` returning `none` on `ValueError`.
Keeps, in input order: buy-polarity points, whose extracted tag values meet
`bsp_types`, whose time parses, and whose parsed time is `≥ cutoff_time`
where `cutoff_time = now - timedelta(days = time_window_days)`; a kept point
is emitted with its tag rewritten by `rewriteType`. All other points are
dropped (the source only counts them for diagnostics). -/
def filterBuyPoints (parse : String → Option Int) (now : Int)
    (bs_points : List BSPoint) (bsp_types : List String)
    (time_window_days : Int) : List BSPoint :=
  let cutoff_time := now - time_window_days * 86400
  match bs_points with
  | [] => []
  | bsp :: rest =>
      let tail := filterBuyPoints parse now rest bsp_types time_window_days
      if !bsp.is_buy then tail
      else
        let vals := extractTypeValues bsp.type
        if !vals.any (fun t => bsp_types.contains t) then tail
        else
          let bsp1 := rewriteType bsp_types bsp
          match parse bsp1.time with
          | none => tail
          | some bsp_time =>
              if cutoff_time ≤ bsp_time then bsp1 :: tail else tail

/-- The universe catalog as seen by `ScanService.get_all_stocks`
(lines 135–147): `some rows` is the `SELECT code FROM stocks ORDER BY code`
answer, `none` is the exception path, which returns the empty list. -/
def getAllStocks (catalog : Option (List String)) : List String :=
  match catalog with
  | some rows => rows
  | none => []

/-- `ScanService.BOARD_PATTERNS` (lines 119–133): the per-board predicate on
the `market.code` encoding, `none` for an unknown board key
(`BOARD_PATTERNS.get(board)` returning `None`). -/
def boardPattern (board : String) : Option (String → Bool) :=
  if board = "sh_main" then some (fun code => code.startsWith "sh.60")
  else if board = "sz_main" then some (fun code => code.startsWith "sz.00")
  else if board = "cyb" then some (fun code => code.startsWith "sz.30")
  else if board = "kcb" then some (fun code => code.startsWith "sh.688")
  else if board = "bj" then some (fun code => code.startsWith "bj.")
  else if board = "etf" then some (fun code =>
    code.startsWith "sh.51" || code.startsWith "sh.56" || code.startsWith "sh.58"
      || code.startsWith "sz.15" || code.startsWith "sz.16" || code.startsWith "sz.18")
  else none

/-- One identifier passes the board filter when some requested board has a
known pattern that accepts it (`if pattern and pattern(code)`); the source's
`break` only prevents double-insertion, so membership semantics are `any`. -/
def matchesAnyBoard (boards : List String) (code : String) : Bool :=
  boards.any (fun board =>
    match boardPattern board with
    | some pattern => pattern code
    | none => false)

/-- `ScanService.get_stocks_by_boards` (lines 149–163): the full catalog when
no boards are requested, otherwise the catalog filtered (in order, keeping
duplicates of the catalog) by `matchesAnyBoard`. -/
def getStocksByBoards (catalog : Option (List String))
    (boards : List String) : List String :=
  let all_stocks := getAllStocks catalog
  if boards.isEmpty then all_stocks
  else all_stocks.filter (fun code => matchesAnyBoard boards code)

/-- Python truthiness of an optional list: `None` and `[]` are falsy. -/
def optListTruthy (o : Option (List String)) : Bool :=
  match o with
  | none => false
  | some l => !l.isEmpty

/-- `ScanService.get_stock_list` (lines 165–177). Note the guards are the
Python truthiness tests `stock_codes` / `boards`: a `custom` pool with an
empty (or absent) identifier list falls through to the final `else` and
returns the full catalog. -/
def getStockList (catalog : Option (List String)) (stock_pool : String)
    (boards : Option (List String)) (stock_codes : Option (List String)) :
    List String :=
  if stock_pool = "custom" && optListTruthy stock_codes then
    stock_codes.getD []
  else if stock_pool = "boards" && optListTruthy boards then
    getStocksByBoards catalog (boards.getD [])
  else
    getAllStocks catalog

/-- `schemas.ScanRequest`: the caller's scan request (immutable once accepted).
`time_window_days : int` and `limit : int` as in the source. -/
structure ScanRequest where
  stock_pool : String
  boards : Option (List String)
  stock_codes : Option (List String)
  kline_type : String
  bsp_types : List String
  time_window_days : Int
  limit : Int
deriving DecidableEq, Repr

/-- The externally observable effects of `ScanService.start_scan`
(lines 867–906): the durable task rows created (`create_task_in_db`), the
in-process registry `self.tasks`, and the background scan threads started. -/
structure ServiceState where
  dbTasks : List String
  memTasks : List String
  threads : List String
deriving DecidableEq, Repr

/-- `ScanService.start_scan` (lines 867–906), with its collaborators passed
in: `catalog` feeds `get_stock_list`, `dbOk` is whether `create_task_in_db`
succeeds (it re-raises its database exception), `task_id` stands for the
generated `uuid4()`. The source raises `ValueError("没有可扫描的股票")` before
creating any record when the resolved list is empty; otherwise it writes the
database row, registers the in-memory task and starts the scan thread, and
returns the task id. -/
def startScan (catalog : Option (List String)) (dbOk : Bool)
    (request : ScanRequest) (task_id : String) (st : ServiceState) :
    ServiceState × Except String String :=
  let stocks := getStockList catalog request.stock_pool request.boards
    request.stock_codes
  if stocks.isEmpty then
    (st, Except.error "没有可扫描的股票")
  else if !dbOk then
    (st, Except.error "创建任务记录失败")
  else
    ({ dbTasks := st.dbTasks ++ [task_id],
       memTasks := st.memTasks ++ [task_id],
       threads := st.threads ++ [task_id] }, Except.ok task_id)

/-- The mutable fields of a `ScanTask` (lines 57–73) touched by the
scheduler, the workers and `cancel_scan`. `start_time` and the SSE queue are
modelled separately (the scheduler never writes them). -/
structure TaskMem where
  status : Status
  total_count : Nat
  processed_count : Nat
  found_count : Nat
  current_stock : Option String
  results : List ScanResultItem
  error_message : Option String
  cancelled : Bool
deriving DecidableEq, Repr

/-- `ScanTask.__init__` (lines 60–71): status `running`, counters zeroed,
`total_count` fixed to the resolved universe size, cancel flag clear. -/
def initTask (total_stocks : Nat) : TaskMem :=
  { status := Status.running
    total_count := total_stocks
    processed_count := 0
    found_count := 0
    current_stock := none
    results := []
    error_message := none
    cancelled := false }

/-- The critical section of `_run_scan` at lines 925–930: under `task.lock`,
`processed_count += 1`, and when the worker returned a truthy result,
`results.extend(result)` and `found_count += len(result)`. A worker result is
`Option (List ScanResultItem)` — `none` for "no match / skipped / failed"
(`scan_single_stock` catches its own exceptions and returns `None`, and the
inner `except` of `_run_scan` likewise only increments `processed_count`). -/
def collectResult (t : TaskMem) (res : Option (List ScanResultItem)) : TaskMem :=
  let t1 := { t with processed_count := t.processed_count + 1 }
  match res with
  | none => t1
  | some rs =>
      if rs.isEmpty then t1
      else { t1 with results := t1.results ++ rs,
                     found_count := t1.found_count + rs.length }

/-- Control position of the `_run_scan` driving loop (lines 908–975):
`submitting` = building the `futures` dict; `iter` = at the top of
`for future in as_completed(futures)`, about to wait for the next completed
future; `body code res` = a completed future has been dequeued and the loop
body is about to run its `if task.cancelled: break` check; `collecting code
res` = that check read the flag clear (an unlocked read, a separate program
point from the locked update that follows it), and the loop is about to run
the critical section of lines 925–930; `drained` = the loop has been left
(exhaustion or `break`), the terminal-status critical section not yet run;
`finished` = `_run_scan` is past its status write. -/
inductive LoopState where
  | submitting
  | iter
  | body (code : String) (res : Option (List ScanResultItem))
  | collecting (code : String) (res : Option (List ScanResultItem))
  | drained
  | finished
deriving DecidableEq, Repr

/-- Global state of one scan: the shared `ScanTask` record, the units not yet
picked up by a pool worker, the units a worker is currently running, the
completed futures not yet yielded by `as_completed` (in completion order),
and the driving loop's control position. -/
structure SchedState where
  task : TaskMem
  pending : List String
  inflight : List String
  completedQ : List (String × Option (List ScanResultItem))
  loop : LoopState
deriving DecidableEq, Repr

/-- State at the moment `start_scan` has registered the task and spawned
`_run_scan`: fresh task record, no unit yet submitted. -/
def initState (stocks : List String) : SchedState :=
  { task := initTask stocks.length
    pending := []
    inflight := []
    completedQ := []
    loop := LoopState.submitting }

/-- `ScanService.cancel_scan` (lines 1009–1016): look the task up; only when
its status is `"running"`, set the cancel flag (under the task lock) and
report acceptance; otherwise change nothing and report `False`. -/
def cancelScan (s : SchedState) : SchedState × Bool :=
  if s.task.status = Status.running then
    ({ s with task := { s.task with cancelled := true } }, true)
  else
    (s, false)

/-- Number of units currently held by the loop body (the future dequeued by
`as_completed` but not yet counted or discarded), in either of the body's
two program points (before and after the cancel check). -/
def bodyCount (l : LoopState) : Nat :=
  match l with
  | LoopState.body _ _ => 1
  | LoopState.collecting _ _ => 1
  | _ => 0

/-- Units submitted but not yet accounted for by the driving loop. -/
def unitsLeft (s : SchedState) : Nat :=
  s.pending.length + s.inflight.length + s.completedQ.length + bodyCount s.loop

/-- One atomic step of the scan system, for a fixed environment: `outcome`
maps each instrument to what `scan_single_stock` returns for it when it runs
to completion (engine call plus `filter_buy_points`; `none` covers both
"engine failed" and "no matching points"), and `stocks` is the submitted
unit list. Transitions:

* `submitOk` / `submitFail`: the `futures` dict comprehension (lines
  914–917) either submits every unit or raises; a raise is caught by the
  outer `except` (lines 969–975), which records `status = "error"` with the
  message and ends `_run_scan`.
* `startSkip`: a pool worker picks up a unit, `scan_single_stock` reads a
  set cancel flag at line 712 and returns `None` immediately; the future
  completes with `None`.
* `startRun`: a pool worker picks up a unit, the cancel flag is clear, so
  `scan_single_stock` records `current_stock` under the lock and starts the
  engine call.
* `finish`: a running unit's engine call returns; its future completes with
  `outcome code`. A hung engine call is a unit that never takes this step.
* `next`: `as_completed` yields the oldest completed future to the loop.
* `exhaust`: every future has been yielded, `as_completed` stops, the loop
  ends normally.
* `bodyBreak`: the loop body's `if task.cancelled: break` (line 920) sees
  the flag set; the dequeued future is discarded uncounted.
* `bodyCheck`: that check sees the flag clear. The read at line 920 is not
  under `task.lock` and is a distinct program point from the update that
  follows, so it is its own transition: an external `cancelRequest` can set
  the flag between the check and the collect.
* `collect`: the critical section of lines 925–930 runs (`collectResult`),
  unconditionally — the flag is not re-read, so a unit whose check already
  passed contributes even if the flag was set in the meantime.
* `finalize`: the terminal critical section of lines 946–951: status becomes
  `"cancelled"` or `"completed"` by the cancel flag, `current_stock` is
  cleared. (The subsequent persistence and push calls swallow their own
  exceptions and do not touch the in-memory record's status.)
* `cancelRequest`: an external `cancel_scan` call (effect `cancelScan`). -/
inductive Step (outcome : String → Option (List ScanResultItem))
    (stocks : List String) : SchedState → SchedState → Prop where
  | submitOk (s : SchedState) (h : s.loop = LoopState.submitting) :
      Step outcome stocks s { s with pending := stocks, loop := LoopState.iter }
  | submitFail (s : SchedState) (msg : String)
      (h : s.loop = LoopState.submitting) :
      Step outcome stocks s
        { s with task := { s.task with status := Status.error,
                                       error_message := some msg },
                 loop := LoopState.finished }
  | startSkip (s : SchedState) (code : String) (rest : List String)
      (hp : s.pending = code :: rest) (hc : s.task.cancelled = true) :
      Step outcome stocks s
        { s with pending := rest,
                 completedQ := s.completedQ ++ [(code, none)] }
  | startRun (s : SchedState) (code : String) (rest : List String)
      (hp : s.pending = code :: rest) (hc : s.task.cancelled = false) :
      Step outcome stocks s
        { s with pending := rest,
                 inflight := code :: s.inflight,
                 task := { s.task with current_stock := some code } }
  | finish (s : SchedState) (code : String) (hm : code ∈ s.inflight) :
      Step outcome stocks s
        { s with inflight := s.inflight.erase code,
                 completedQ := s.completedQ ++ [(code, outcome code)] }
  | next (s : SchedState) (code : String)
      (res : Option (List ScanResultItem))
      (q : List (String × Option (List ScanResultItem)))
      (hl : s.loop = LoopState.iter) (hq : s.completedQ = (code, res) :: q) :
      Step outcome stocks s
        { s with completedQ := q, loop := LoopState.body code res }
  | exhaust (s : SchedState) (hl : s.loop = LoopState.iter)
      (hq : s.completedQ = []) (hp : s.pending = []) (hi : s.inflight = []) :
      Step outcome stocks s { s with loop := LoopState.drained }
  | bodyBreak (s : SchedState) (code : String)
      (res : Option (List ScanResultItem))
      (hl : s.loop = LoopState.body code res) (hc : s.task.cancelled = true) :
      Step outcome stocks s { s with loop := LoopState.drained }
  | bodyCheck (s : SchedState) (code : String)
      (res : Option (List ScanResultItem))
      (hl : s.loop = LoopState.body code res)
      (hc : s.task.cancelled = false) :
      Step outcome stocks s { s with loop := LoopState.collecting code res }
  | collect (s : SchedState) (code : String)
      (res : Option (List ScanResultItem))
      (hl : s.loop = LoopState.collecting code res) :
      Step outcome stocks s
        { s with task := collectResult s.task res, loop := LoopState.iter }
  | finalize (s : SchedState) (hl : s.loop = LoopState.drained) :
      Step outcome stocks s
        { s with task := { s.task with
                    status := if s.task.cancelled then Status.cancelled
                              else Status.completed,
                    current_stock := none },
                 loop := LoopState.finished }
  | cancelRequest (s : SchedState) :
      Step outcome stocks s (cancelScan s).1

/-- States reachable from the freshly created task by any interleaving of
scheduler, worker and cancellation steps. -/
inductive Reaches (outcome : String → Option (List ScanResultItem))
    (stocks : List String) : SchedState → Prop where
  | init : Reaches outcome stocks (initState stocks)
  | step {s s' : SchedState} (hr : Reaches outcome stocks s)
      (hs : Step outcome stocks s s') : Reaches outcome stocks s'

/-- Field behaviour of one `collectResult` critical section: exactly one unit
is counted, and status, total, cancel flag are untouched. -/
theorem collectResult_fields (t : TaskMem) (res : Option (List ScanResultItem)) :
    (collectResult t res).processed_count = t.processed_count + 1 ∧
    (collectResult t res).status = t.status ∧
    (collectResult t res).total_count = t.total_count ∧
    (collectResult t res).cancelled = t.cancelled := by
  cases res with
  | none => simp [collectResult]
  | some rs =>
      by_cases h : rs.isEmpty <;> simp [collectResult, h]

/-- One `collectResult` critical section keeps `found_count` equal to the
length of `results`. -/
theorem collectResult_found (t : TaskMem) (res : Option (List ScanResultItem))
    (h : t.found_count = t.results.length) :
    (collectResult t res).found_count = (collectResult t res).results.length := by
  cases res with
  | none => simpa [collectResult]
  | some rs =>
      by_cases he : rs.isEmpty <;>
        simp [collectResult, he, h, Nat.add_comm]

/-- The inductive invariant of the scan transition system: counters are
consistent with the multiset of not-yet-accounted units, `found_count`
mirrors `results`, the loop position is tied to the status, and a completed
task was never cancelled. -/
def Inv (stocks : List String) (s : SchedState) : Prop :=
  s.task.total_count = stocks.length ∧
  s.task.processed_count + unitsLeft s ≤ stocks.length ∧
  s.task.found_count = s.task.results.length ∧
  (s.loop = LoopState.submitting →
    s.pending = [] ∧ s.inflight = [] ∧ s.completedQ = [] ∧
    s.task.processed_count = 0) ∧
  (s.task.cancelled = false → s.task.status ≠ Status.error →
    s.loop ≠ LoopState.submitting →
    s.task.processed_count + unitsLeft s = stocks.length) ∧
  (s.loop = LoopState.finished ↔ s.task.status ≠ Status.running) ∧
  (s.task.status = Status.completed → s.task.cancelled = false) ∧
  (s.task.cancelled = false →
    s.loop = LoopState.drained ∨ s.loop = LoopState.finished →
    unitsLeft s = 0)

/-- The invariant holds at task creation. -/
theorem inv_init (stocks : List String) : Inv stocks (initState stocks) := by
  simp [Inv, initState, initTask, unitsLeft, bodyCount]

/-- The invariant is preserved by every atomic step of the system. -/
theorem inv_step {outcome : String → Option (List ScanResultItem)}
    {stocks : List String} {s s' : SchedState} (hinv : Inv stocks s)
    (hs : Step outcome stocks s s') : Inv stocks s' := by
  obtain ⟨h1, h2, h3, h4, h5, h6, h7, h8⟩ := hinv
  cases hs with
  | submitOk h =>
      obtain ⟨hp, hi, hq, hpc⟩ := h4 h
      rw [h] at h6
      simp only [reduceCtorEq, false_iff, not_not] at h6
      refine ⟨h1, ?_, h3, ?_, ?_, ?_, h7, ?_⟩
      · simp only [unitsLeft, bodyCount, hi, hq, hpc]
        simp
      · intro hsub
        simp at hsub
      · intro _ _ _
        simp only [unitsLeft, bodyCount, hi, hq, hpc]
        simp
      · simp [h6]
      · intro _ hor
        simp at hor
  | submitFail msg h =>
      obtain ⟨hp, hi, hq, hpc⟩ := h4 h
      refine ⟨h1, ?_, h3, ?_, ?_, ?_, ?_, ?_⟩
      · simp only [unitsLeft, bodyCount, hp, hi, hq, hpc]
        simp
      · intro hsub
        simp at hsub
      · intro _ herr _
        simp at herr
      · simp
      · intro hcomp
        simp at hcomp
      · intro _ _
        simp only [unitsLeft, bodyCount, hp, hi, hq]
        simp
  | startSkip code rest hp hc =>
      have hplen : s.pending.length = rest.length + 1 := by
        rw [hp]; rfl
      refine ⟨h1, ?_, h3, ?_, ?_, h6, ?_, ?_⟩
      · simp only [unitsLeft, bodyCount, List.length_append,
          List.length_singleton] at h2 ⊢
        omega
      · intro h
        exact absurd (h4 h).1 (by simp [hp])
      · intro hco
        rw [hco] at hc
        simp at hc
      · intro hcomp
        exact absurd (h7 hcomp) (by simp [hc])
      · intro hco
        rw [hco] at hc
        simp at hc
  | startRun code rest hp hc =>
      have hplen : s.pending.length = rest.length + 1 := by
        rw [hp]; rfl
      refine ⟨h1, ?_, h3, ?_, ?_, h6, h7, ?_⟩
      · simp only [unitsLeft, bodyCount, List.length_cons] at h2 ⊢
        omega
      · intro h
        exact absurd (h4 h).1 (by simp [hp])
      · intro hc2 herr hsub
        have h5x := h5 hc2 herr hsub
        simp only [unitsLeft, bodyCount, List.length_cons] at h5x ⊢
        omega
      · intro hc2 hd
        have h8x := h8 hc2 hd
        simp only [unitsLeft, bodyCount] at h8x ⊢
        omega
  | finish code hm =>
      have hlen : (s.inflight.erase code).length = s.inflight.length - 1 :=
        List.length_erase_of_mem hm
      have hpos : 0 < s.inflight.length :=
        List.length_pos.mpr (List.ne_nil_of_mem hm)
      refine ⟨h1, ?_, h3, ?_, ?_, h6, h7, ?_⟩
      · simp only [unitsLeft, bodyCount, List.length_append,
          List.length_singleton, hlen] at h2 ⊢
        omega
      · intro h
        exact absurd (h4 h).2.1 (List.ne_nil_of_mem hm)
      · intro hc2 herr hsub
        have h5x := h5 hc2 herr hsub
        simp only [unitsLeft, bodyCount, List.length_append,
          List.length_singleton, hlen] at h5x ⊢
        omega
      · intro hc2 hd
        have h8x := h8 hc2 hd
        simp only [unitsLeft, bodyCount] at h8x
        omega
  | next code res q hl hq =>
      rw [hl] at h6
      simp only [reduceCtorEq, false_iff, not_not] at h6
      have hqlen : s.completedQ.length = q.length + 1 := by
        rw [hq]; rfl
      refine ⟨h1, ?_, h3, ?_, ?_, ?_, h7, ?_⟩
      · simp only [unitsLeft, bodyCount, hl] at h2 ⊢
        omega
      · intro hsub
        simp at hsub
      · intro hc2 herr _
        have h5x := h5 hc2 herr (by rw [hl]; simp)
        simp only [unitsLeft, bodyCount, hl] at h5x ⊢
        omega
      · simp [h6]
      · intro _ hor
        simp at hor
  | exhaust hl hq hp hi =>
      rw [hl] at h6
      simp only [reduceCtorEq, false_iff, not_not] at h6
      refine ⟨h1, ?_, h3, ?_, ?_, ?_, h7, ?_⟩
      · simp only [unitsLeft, bodyCount, hl] at h2 ⊢
        omega
      · intro hsub
        simp at hsub
      · intro hc2 herr _
        have h5x := h5 hc2 herr (by rw [hl]; simp)
        simp only [unitsLeft, bodyCount, hl] at h5x ⊢
        omega
      · simp [h6]
      · intro _ _
        simp only [unitsLeft, bodyCount, hq, hp, hi]
        simp
  | bodyBreak code res hl hc =>
      rw [hl] at h6
      simp only [reduceCtorEq, false_iff, not_not] at h6
      refine ⟨h1, ?_, h3, ?_, ?_, ?_, ?_, ?_⟩
      · simp only [unitsLeft, bodyCount, hl] at h2 ⊢
        omega
      · intro hsub
        simp at hsub
      · intro hco
        rw [hco] at hc
        simp at hc
      · simp [h6]
      · intro hcomp
        exact absurd (h7 hcomp) (by simp [hc])
      · intro hco
        rw [hco] at hc
        simp at hc
  | bodyCheck code res hl hc =>
      rw [hl] at h6
      simp only [reduceCtorEq, false_iff, not_not] at h6
      refine ⟨h1, ?_, h3, ?_, ?_, ?_, h7, ?_⟩
      · simp only [unitsLeft, bodyCount, hl] at h2 ⊢
        omega
      · intro hsub
        simp at hsub
      · intro hc2 herr _
        have h5x := h5 hc2 herr (by rw [hl]; simp)
        simp only [unitsLeft, bodyCount, hl] at h5x ⊢
        omega
      · simp [h6]
      · intro _ hor
        simp at hor
  | collect code res hl =>
      rw [hl] at h6
      simp only [reduceCtorEq, false_iff, not_not] at h6
      obtain ⟨hf1, hf2, hf3, hf4⟩ := collectResult_fields s.task res
      refine ⟨?_, ?_, collectResult_found s.task res h3, ?_, ?_, ?_, ?_, ?_⟩
      · rw [hf3]; exact h1
      · simp only [unitsLeft, bodyCount, hl, hf1] at h2 ⊢
        omega
      · intro hsub
        simp at hsub
      · intro hco _ _
        have hco2 : s.task.cancelled = false := by
          rw [← hf4]; exact hco
        have h5x := h5 hco2 (by rw [h6]; simp) (by rw [hl]; simp)
        simp only [unitsLeft, bodyCount, hl, hf1] at h5x ⊢
        omega
      · rw [hf2, h6]
        simp
      · intro hcomp
        have hcomp2 : s.task.status = Status.completed := by
          rw [← hf2]; exact hcomp
        rw [hf4]
        exact h7 hcomp2
      · intro _ hor
        simp at hor
  | finalize hl =>
      rw [hl] at h6
      simp only [reduceCtorEq, false_iff, not_not] at h6
      have h8x := fun hc2 => h8 hc2 (Or.inl hl)
      refine ⟨h1, ?_, h3, ?_, ?_, ?_, ?_, ?_⟩
      · simp only [unitsLeft, bodyCount, hl] at h2 ⊢
        omega
      · intro hsub
        simp at hsub
      · intro hco _ _
        have h5x := h5 hco (by rw [h6]; simp) (by rw [hl]; simp)
        simp only [unitsLeft, bodyCount, hl] at h5x ⊢
        omega
      · by_cases hcb : s.task.cancelled <;> simp [hcb]
      · intro hcomp
        by_cases hcb : s.task.cancelled
        · simp [hcb] at hcomp
        · simpa using hcb
      · intro hc2 _
        have := h8x (by simpa using hc2)
        simp only [unitsLeft, bodyCount, hl] at this ⊢
        omega
  | cancelRequest =>
      by_cases hrun : s.task.status = Status.running
      · have he : (cancelScan s).1 =
            { s with task := { s.task with cancelled := true } } := by
          simp [cancelScan, hrun]
        rw [he]
        refine ⟨h1, h2, h3, h4, ?_, h6, ?_, ?_⟩
        · intro hco
          simp at hco
        · intro hcomp
          rw [hrun] at hcomp
          simp at hcomp
        · intro hco
          simp at hco
      · have he : (cancelScan s).1 = s := by
          simp [cancelScan, hrun]
        rw [he]
        exact ⟨h1, h2, h3, h4, h5, h6, h7, h8⟩

/-- Every reachable state of a scan satisfies the invariant. -/
theorem reaches_inv {outcome : String → Option (List ScanResultItem)}
    {stocks : List String} {s : SchedState}
    (h : Reaches outcome stocks s) : Inv stocks s := by
  induction h with
  | init => exact inv_init stocks
  | step hr hs ih => exact inv_step ih hs

/-- The timing fields of `ScanTask` (line 69) together with its status.
`start_time` is `time.time()` at construction, in seconds. -/
structure ScanTaskTiming where
  status : Status
  start_time : Int
deriving DecidableEq, Repr

/-- `ScanTask.elapsed_time` (lines 81–83): `time.time() - self.start_time`,
recomputed from the live clock `now` on every read, whatever the status. -/
def elapsedTime (t : ScanTaskTiming) (now : Int) : Int :=
  now - t.start_time

/-- The `elapsed_time` field of `ScanTask.to_result` (lines 97–105): the live
`elapsed_time` at the moment `to_result` is called. -/
def toResultElapsed (t : ScanTaskTiming) (now : Int) : Int :=
  elapsedTime t now

/-- `rewriteType` only rewrites the `type` field: polarity, timestamp, value
and bar index are untouched. -/
theorem rewriteType_fields (bsp_types : List String) (b : BSPoint) :
    (rewriteType bsp_types b).is_buy = b.is_buy ∧
    (rewriteType bsp_types b).time = b.time ∧
    (rewriteType bsp_types b).value = b.value ∧
    (rewriteType bsp_types b).klu_idx = b.klu_idx := by
  simp only [rewriteType]
  by_cases hl : 1 < (extractTypeValues b.type).length
  · simp only [hl, if_true]
    cases hf : (bsp_types.find? fun t => (extractTypeValues b.type).contains t) <;>
      simp [hf]
  · simp only [hl, if_false]
    simp

/-- Unfolding equation of `filterBuyPoints` on a non-empty input. -/
theorem filterBuyPoints_cons (parse : String → Option Int) (now : Int)
    (b : BSPoint) (rest : List BSPoint) (bsp_types : List String)
    (time_window_days : Int) :
    filterBuyPoints parse now (b :: rest) bsp_types time_window_days =
      (let tail := filterBuyPoints parse now rest bsp_types time_window_days
       if !b.is_buy then tail
       else if !(extractTypeValues b.type).any
           (fun t => bsp_types.contains t) then tail
       else
         match parse (rewriteType bsp_types b).time with
         | none => tail
         | some bsp_time =>
             if now - time_window_days * 86400 ≤ bsp_time then
               rewriteType bsp_types b :: tail
             else tail) := rfl

/-- The filter emits, in order, a subset of the tag-rewritten input points. -/
theorem filterBuyPoints_sublist (parse : String → Option Int) (now : Int)
    (bsp_types : List String) (time_window_days : Int) :
    ∀ bs_points : List BSPoint,
      List.Sublist
        (filterBuyPoints parse now bs_points bsp_types time_window_days)
        (bs_points.map (rewriteType bsp_types))
  | [] => by simp [filterBuyPoints]
  | b :: rest => by
      have ih := filterBuyPoints_sublist parse now bsp_types time_window_days rest
      rw [filterBuyPoints_cons, List.map_cons]
      dsimp only
      cases hb : b.is_buy with
      | false =>
          simp only [hb, Bool.not_false, if_true]
          exact List.Sublist.cons _ ih
      | true =>
          cases hm : (extractTypeValues b.type).any
              (fun t => bsp_types.contains t) with
          | false =>
              simp only [hb, hm, Bool.not_true, Bool.not_false,
                Bool.false_eq_true, if_false, if_true]
              exact List.Sublist.cons _ ih
          | true =>
              simp only [hb, hm, Bool.not_true, Bool.false_eq_true, if_false]
              cases hp : parse (rewriteType bsp_types b).time with
              | none =>
                  simp only [hp]
                  exact List.Sublist.cons _ ih
              | some tv =>
                  simp only [hp]
                  by_cases hc : now - time_window_days * 86400 ≤ tv
                  · rw [if_pos hc]
                    exact List.Sublist.cons₂ _ ih
                  · rw [if_neg hc]
                    exact List.Sublist.cons _ ih

/-- Claim C1: for every task, at every observed instant from creation until
(and including) its terminal state, `processed_count ≤ total_count` and
`found_count` equals the length of the task's `results` list. Every counter
mutation and `results` append of the source happens inside a
`with task.lock:` block (`_run_scan` lines 926–930 and 942–943), which the
embedding reflects by making each such critical section one atomic
transition of `Step`; the invariant then holds in every reachable state,
i.e. at every instant any thread can observe. -/
theorem c1_counter_invariants
    (outcome : String → Option (List ScanResultItem)) (stocks : List String)
    (s : SchedState) (h : Reaches outcome stocks s) :
    s.task.processed_count ≤ s.task.total_count ∧
    s.task.found_count = s.task.results.length := by
  obtain ⟨h1, h2, h3, -⟩ := reaches_inv h
  exact ⟨by omega, h3⟩

/-- The trivial environment used by witnesses: every unit reports nothing. -/
def outNone : String → Option (List ScanResultItem) := fun _ => none

/-- Witness for C1 at the freshly created single-stock task. -/
theorem c1_counter_invariants_witness :
    (initState ["sh.600000"]).task.processed_count ≤
      (initState ["sh.600000"]).task.total_count ∧
    (initState ["sh.600000"]).task.found_count =
      (initState ["sh.600000"]).task.results.length :=
  c1_counter_invariants outNone ["sh.600000"] _ Reaches.init

/-- Claim C2 counterexample: with the pool selector `"custom"` and the
caller-supplied explicit list empty, `get_stock_list` does not return the
empty list verbatim — the Python truthiness guard
`stock_pool == "custom" and stock_codes` fails on `[]` and the function
falls through to `get_all_stocks()`, here a one-element catalog. -/
theorem c2_counterexample :
    getStockList (some ["sh.600000"]) "custom" none (some []) =
      ["sh.600000"] ∧
    getStockList (some ["sh.600000"]) "custom" none (some []) ≠ [] := by
  constructor
  · rfl
  · decide

/-- Claim C2 as amended: with the `"custom"` pool selector,
`get_stock_list` returns the caller-supplied identifier list verbatim only
when that list is non-empty; an empty or absent explicit list instead falls
back to the full catalog (`get_all_stocks`), so an empty explicit list never
yields zero units on its own. -/
theorem c2_custom_pool_amended (catalog : Option (List String))
    (boards : Option (List String)) (codes : List String) (h : codes ≠ []) :
    getStockList catalog "custom" boards (some codes) = codes ∧
    getStockList catalog "custom" boards (some []) = getAllStocks catalog ∧
    getStockList catalog "custom" boards none = getAllStocks catalog := by
  refine ⟨?_, ?_, ?_⟩
  · have he : codes.isEmpty = false := by
      cases codes with
      | nil => exact absurd rfl h
      | cons a l => rfl
    simp [getStockList, optListTruthy, he]
  · simp [getStockList, optListTruthy]
  · simp [getStockList, optListTruthy]

/-- Witness for the amended C2 at a concrete catalog and explicit list. -/
theorem c2_custom_pool_amended_witness :
    getStockList (some ["sh.600000"]) "custom" none (some ["sz.000001"]) =
      ["sz.000001"] ∧
    getStockList (some ["sh.600000"]) "custom" none (some []) =
      getAllStocks (some ["sh.600000"]) ∧
    getStockList (some ["sh.600000"]) "custom" none none =
      getAllStocks (some ["sh.600000"]) :=
  c2_custom_pool_amended (some ["sh.600000"]) none ["sz.000001"] (by decide)

/-- Claim C6: when the resolved instrument universe is empty — including the
catalog-unavailable case, where `get_all_stocks` returns `[]` —
`start_scan` raises `ValueError("没有可扫描的股票")` before `create_task_in_db`,
before the `ScanTask` is registered in `self.tasks` and before the scan
thread is started: the service state is returned unchanged. -/
theorem c6_empty_universe_rejected (catalog : Option (List String))
    (dbOk : Bool) (request : ScanRequest) (task_id : String)
    (st : ServiceState)
    (h : getStockList catalog request.stock_pool request.boards
      request.stock_codes = []) :
    startScan catalog dbOk request task_id st =
      (st, Except.error "没有可扫描的股票") := by
  simp [startScan, h]

/-- Witness for C6: a full-market request against an unavailable catalog. -/
theorem c6_empty_universe_rejected_witness :
    startScan none true
      { stock_pool := "all", boards := none, stock_codes := none,
        kline_type := "day", bsp_types := ["1", "2"], time_window_days := 3,
        limit := 500 } "task-1"
      { dbTasks := [], memTasks := [], threads := [] } =
    ({ dbTasks := [], memTasks := [], threads := [] },
      Except.error "没有可扫描的股票") :=
  c6_empty_universe_rejected none true _ "task-1" _ (by rfl)

/-- A completed in-memory task whose clock keeps running. -/
def c9task : ScanTaskTiming :=
  { status := Status.completed, start_time := 0 }

/-- Claim C9 counterexample: `ScanTask.elapsed_time` is
`time.time() - self.start_time` with no freezing — two reads of the reported
elapsed time of a completed task at different clock instants differ. -/
theorem c9_counterexample :
    c9task.status = Status.completed ∧
    toResultElapsed c9task 100 ≠ toResultElapsed c9task 200 := by
  exact ⟨rfl, by decide⟩

/-- Claim C9 as amended: the reported elapsed time equals `now − start_time`
at every instant, while running and equally after a terminal state — it is
never frozen in memory: two reads after completion differ by exactly the
wall-clock time between them (only the durable row's `elapsed_time` column,
written by the final flush, stops changing). -/
theorem c9_elapsed_never_frozen (t : ScanTaskTiming) (now1 now2 : Int)
    (_h : t.status ≠ Status.running) :
    toResultElapsed t now2 - toResultElapsed t now1 = now2 - now1 := by
  simp [toResultElapsed, elapsedTime]

/-- Witness for the amended C9 on the completed task. -/
theorem c9_elapsed_never_frozen_witness :
    toResultElapsed c9task 200 - toResultElapsed c9task 100 = 200 - 100 :=
  c9_elapsed_never_frozen c9task 100 200 (by decide)

/-- `ScanService.MAX_WORKERS` (line 111): the bounded pool ceiling. -/
def MAX_WORKERS : Nat := 15

/-- `ScanService.SINGLE_STOCK_TIMEOUT` (line 112): the per-unit timeout
passed to `future.result(timeout=...)` at line 925. Since `as_completed`
(line 919, called without its own timeout) only yields futures that are
already done, that `result` call can never wait, so this constant has no
effect on the loop's behaviour — the transition system accordingly has no
timeout transition: a unit is either collected after its `finish` step or
never collected. -/
def SINGLE_STOCK_TIMEOUT : Nat := 30

/-- The single-quote character as a one-character string, for building the
engine's stringified tag values. -/
def quoteStr : String := String.mk [quoteChar]

/-- A raw two-tag `type` string as produced by the engine:
`[<BSP_TYPE.T2: '2'>, <BSP_TYPE.T3A: '3a'>]`. -/
def rawTagPair : String :=
  "[<BSP_TYPE.T2: " ++ quoteStr ++ "2" ++ quoteStr ++ ">, <BSP_TYPE.T3A: "
    ++ quoteStr ++ "3a" ++ quoteStr ++ ">]"

/-- A raw single-tag `type` string: `[<BSP_TYPE.T1: '1'>]`. -/
def rawTagSingle : String :=
  "[<BSP_TYPE.T1: " ++ quoteStr ++ "1" ++ quoteStr ++ ">]"

/-- A buy decision point carrying the packed tags `{"2","3a"}`. -/
def bspMulti : BSPoint :=
  { type := rawTagPair, time := "t0", value := 10, klu_idx := 0,
    is_buy := true }

/-- A buy decision point carrying the single tag `"1"`. -/
def bspSingle : BSPoint :=
  { type := rawTagSingle, time := "t0", value := 10, klu_idx := 0,
    is_buy := true }

/-- A concrete timestamp parser for witnesses: the string `"t0"` denotes
second `0` of the clock; everything else fails to parse. -/
def parseT0 (s : String) : Option Int :=
  if s = "t0" then some 0 else none

/-- Claim C4: when a buy decision point carries several packed tag values,
`filter_buy_points` rewrites the item's tag to the first accepted tag in
the caller's requested-tag order (`for t in bsp_types: ... break`) before
emitting it, and drops the item when none of its extracted values is
accepted. -/
theorem c4_first_accepted_tag_wins (parse : String → Option Int)
    (now time_window_days : Int) (bsp_types : List String) (bsp : BSPoint)
    (hb : bsp.is_buy = true)
    (hmulti : 1 < (extractTypeValues bsp.type).length) :
    (∀ t : String,
      bsp_types.find? (fun u => (extractTypeValues bsp.type).contains u) =
        some t →
      ∀ tv : Int, parse bsp.time = some tv →
      now - time_window_days * 86400 ≤ tv →
      filterBuyPoints parse now [bsp] bsp_types time_window_days =
        [{ bsp with type := t }]) ∧
    ((extractTypeValues bsp.type).all
        (fun v => !bsp_types.contains v) = true →
      filterBuyPoints parse now [bsp] bsp_types time_window_days = []) := by
  constructor
  · intro t hfind tv hparse hcut
    have htmem : t ∈ bsp_types := List.mem_of_find?_eq_some hfind
    have htval : t ∈ extractTypeValues bsp.type := by
      have hp := List.find?_some hfind
      simpa using hp
    have hmatch : (extractTypeValues bsp.type).any
        (fun v => bsp_types.contains v) = true := by
      rw [List.any_eq_true]
      exact ⟨t, htval, by simpa using htmem⟩
    have hrw : rewriteType bsp_types bsp = { bsp with type := t } := by
      simp only [rewriteType]
      rw [if_pos hmulti, hfind]
    rw [filterBuyPoints_cons]
    dsimp only
    simp only [hb, hmatch, Bool.not_true, Bool.false_eq_true, if_false, hrw]
    have htime : ({ bsp with type := t } : BSPoint).time = bsp.time := rfl
    simp only [htime, hparse]
    rw [if_pos hcut]
    rfl
  · intro hall
    have hmatch : (extractTypeValues bsp.type).any
        (fun v => bsp_types.contains v) = false := by
      rw [Bool.eq_false_iff]
      intro hany
      obtain ⟨v, hv, hvt⟩ := List.any_eq_true.mp hany
      have := List.all_eq_true.mp hall v hv
      rw [hvt] at this
      simp at this
    rw [filterBuyPoints_cons]
    dsimp only
    simp only [hb, hmatch, Bool.not_true, Bool.not_false, Bool.false_eq_true,
      if_false, if_true]
    rfl

/-- Witness for C4: packed tags `{"2","3a"}` with accepted order
`["3a","2"]` emit canonical tag `"3a"`; with accepted set `["1"]` the item
is dropped. -/
theorem c4_first_accepted_tag_wins_witness :
    filterBuyPoints parseT0 0 [bspMulti] ["3a", "2"] 0 =
      [{ bspMulti with type := "3a" }] ∧
    filterBuyPoints parseT0 0 [bspMulti] ["1"] 0 = [] :=
  ⟨(c4_first_accepted_tag_wins parseT0 0 0 ["3a", "2"] bspMulti rfl
      (by decide)).1 "3a" (by decide) 0 (by decide) (by decide),
   (c4_first_accepted_tag_wins parseT0 0 0 ["1"] bspMulti rfl
      (by decide)).2 (by decide)⟩

/-- Claim C7: a buy-polarity, type-matching decision point timestamped
exactly `now − window_days` is retained by `filter_buy_points`
(`bsp_time >= cutoff_time` is non-strict), and one strictly earlier than
`now − window_days` is dropped. -/
theorem c7_recency_boundary_inclusive (parse : String → Option Int)
    (now time_window_days tv : Int) (bsp_types : List String) (bsp : BSPoint)
    (hb : bsp.is_buy = true)
    (hmatch : (extractTypeValues bsp.type).any
      (fun v => bsp_types.contains v) = true)
    (hparse : parse bsp.time = some tv) :
    (tv = now - time_window_days * 86400 →
      filterBuyPoints parse now [bsp] bsp_types time_window_days =
        [rewriteType bsp_types bsp]) ∧
    (tv < now - time_window_days * 86400 →
      filterBuyPoints parse now [bsp] bsp_types time_window_days = []) := by
  have htime : (rewriteType bsp_types bsp).time = bsp.time :=
    (rewriteType_fields bsp_types bsp).2.1
  constructor
  · intro heq
    rw [filterBuyPoints_cons]
    dsimp only
    simp only [hb, hmatch, Bool.not_true, Bool.false_eq_true, if_false,
      htime, hparse]
    rw [if_pos (by omega)]
    rfl
  · intro hlt
    rw [filterBuyPoints_cons]
    dsimp only
    simp only [hb, hmatch, Bool.not_true, Bool.false_eq_true, if_false,
      htime, hparse]
    rw [if_neg (by omega)]
    rfl

/-- Witness for C7: with a one-day window, the point at second `0` is
retained when `now = 86400` (cutoff exactly `0`) and dropped when
`now = 86401` (cutoff `1`, one second later than the point). -/
theorem c7_recency_boundary_inclusive_witness :
    filterBuyPoints parseT0 86400 [bspSingle] ["1"] 1 =
      [rewriteType ["1"] bspSingle] ∧
    filterBuyPoints parseT0 86401 [bspSingle] ["1"] 1 = [] :=
  ⟨(c7_recency_boundary_inclusive parseT0 86400 1 0 ["1"] bspSingle rfl
      (by decide) (by decide)).1 (by decide),
   (c7_recency_boundary_inclusive parseT0 86401 1 0 ["1"] bspSingle rfl
      (by decide) (by decide)).2 (by decide)⟩

/-- Claim C10: the output of `filter_buy_points` is an order-preserving
subsequence (`List.Sublist`, hence no duplication of positions) of the
input with each emitted item equal to its source item up to the tag
rewrite, which touches only the `type` field. -/
theorem c10_output_is_rewritten_subsequence (parse : String → Option Int)
    (now time_window_days : Int) (bsp_types : List String)
    (bs_points : List BSPoint) :
    List.Sublist
      (filterBuyPoints parse now bs_points bsp_types time_window_days)
      (bs_points.map (rewriteType bsp_types)) ∧
    ∀ b : BSPoint,
      (rewriteType bsp_types b).is_buy = b.is_buy ∧
      (rewriteType bsp_types b).time = b.time ∧
      (rewriteType bsp_types b).value = b.value ∧
      (rewriteType bsp_types b).klu_idx = b.klu_idx :=
  ⟨filterBuyPoints_sublist parse now bsp_types time_window_days bs_points,
   fun b => rewriteType_fields bsp_types b⟩

/-- The two instruments used by the concrete scheduler traces. -/
def stockA : String := "sh.600000"

/-- Second instrument of the two-unit trace. -/
def stockB : String := "sz.000001"

/-- The result the analysis reports for a successful unit in the traces. -/
def itemA : ScanResultItem :=
  { code := "sh.600000", name := some "浦发银行", bsp_type := "1",
    bsp_time := "2025/09/30 15:00", bsp_value := 10, is_buy := true,
    kline_type := "day" }

/-- Environment in which every unit that runs to completion finds `itemA`. -/
def outcomeFound : String → Option (List ScanResultItem) :=
  fun _ => some [itemA]

/-- Mid-trace state of the C3 scenario: the single unit was started by a
worker while the cancel flag was clear, then an external cancel arrived;
the unit is still in flight. -/
def c3taskMid : TaskMem :=
  { status := Status.running
    total_count := 1
    processed_count := 0
    found_count := 0
    current_stock := some stockA
    results := []
    error_message := none
    cancelled := true }

/-- Wrapper state around `c3taskMid`. -/
def c3mid : SchedState :=
  { task := c3taskMid
    pending := []
    inflight := [stockA]
    completedQ := []
    loop := LoopState.iter }

/-- `c3mid` is reachable: submit, worker start, external cancel. -/
theorem c3mid_reachable : Reaches outcomeFound [stockA] c3mid := by
  have r0 : Reaches outcomeFound [stockA] (initState [stockA]) := Reaches.init
  have r1 := Reaches.step r0 (Step.submitOk _ rfl)
  have r2 := Reaches.step r1 (Step.startRun _ stockA [] rfl rfl)
  have r3 := Reaches.step r2 (Step.cancelRequest _)
  exact r3

/-- State of `c3mid` after its in-flight unit finishes with results. -/
def c3mid2 : SchedState :=
  { c3mid with inflight := [], completedQ := [(stockA, some [itemA])] }

/-- Final state of the C3 scenario: the finished unit's future was dequeued
by the loop, discarded by the cancel `break`, and the task finalized as
`cancelled` — with the unit's non-empty result contributing nothing. -/
def c3final : SchedState :=
  { task := { c3taskMid with status := Status.cancelled, current_stock := none }
    pending := []
    inflight := []
    completedQ := []
    loop := LoopState.finished }

/-- `c3final` is reachable from `c3mid`: finish, dequeue, break, finalize. -/
theorem c3final_reachable : Reaches outcomeFound [stockA] c3final := by
  have r4 := Reaches.step c3mid_reachable (Step.finish _ stockA (by decide))
  have r5 := Reaches.step r4 (Step.next _ stockA (some [itemA]) [] rfl rfl)
  have r6 := Reaches.step r5 (Step.bodyBreak _ stockA (some [itemA]) rfl rfl)
  have r7 := Reaches.step r6 (Step.finalize _ rfl)
  exact r7

/-- Claim C3 counterexample: in this reachable run the single unit was
already started when the cancel flag was set, was allowed to finish, and
its engine outcome was the non-empty `[itemA]` — yet the task ends
`cancelled` with `results = []`, `found_count = 0`, `processed_count = 0`:
the loop's `if task.cancelled: break` discards completed futures instead of
draining them, so already-started units do NOT contribute their results,
contrary to the claim. -/
theorem c3_counterexample :
    Reaches outcomeFound [stockA] c3final ∧
    outcomeFound stockA = some [itemA] ∧
    c3final.task.status = Status.cancelled ∧
    c3final.task.results = [] ∧
    c3final.task.found_count = 0 ∧
    c3final.task.processed_count = 0 :=
  ⟨c3final_reachable, rfl, rfl, rfl, rfl, rfl⟩

/-- Claim C3 as amended: if the cancel flag is set while a task is running,
units not yet started are skipped without incrementing `processed_count`,
and units already started are allowed to finish but their completed results
are discarded by the loop rather than contributed — with one bounded
exception: the single dequeued unit whose unlocked `if task.cancelled` check
at line 920 had already read the flag clear when the flag was set is still
collected and contributes. Formally: with the flag set, any step taken from
a loop position other than that post-check point preserves
`processed_count`, `found_count` and `results`; the post-check point is
never entered again (so at most that one unit ever contributes after the
flag); the task never becomes `completed`; and when the drained loop
finalizes, the status becomes `cancelled`. -/
theorem c3_cancel_amended (outcome : String → Option (List ScanResultItem))
    (stocks : List String) (s s' : SchedState)
    (hr : Reaches outcome stocks s) (hst : Step outcome stocks s s')
    (hc : s.task.cancelled = true) :
    ((∀ code res, s.loop ≠ LoopState.collecting code res) →
      s'.task.processed_count = s.task.processed_count ∧
      s'.task.found_count = s.task.found_count ∧
      s'.task.results = s.task.results) ∧
    ((∀ code res, s.loop ≠ LoopState.collecting code res) →
      ∀ code res, s'.loop ≠ LoopState.collecting code res) ∧
    s'.task.status ≠ Status.completed ∧
    (s.loop = LoopState.drained → s'.loop = LoopState.finished →
      s'.task.status = Status.cancelled) := by
  obtain ⟨-, -, -, -, -, h6, h7, -⟩ := reaches_inv hr
  have hnc : s.task.status ≠ Status.completed := by
    intro hcomp
    rw [h7 hcomp] at hc
    exact Bool.false_ne_true hc
  cases hst with
  | submitOk h =>
      refine ⟨fun _ => ⟨rfl, rfl, rfl⟩, ?_, hnc, ?_⟩
      · intro _ code res
        simp
      · intro hd
        rw [h] at hd
        exact absurd hd (by simp)
  | submitFail msg h =>
      refine ⟨fun _ => ⟨rfl, rfl, rfl⟩, ?_, by simp, ?_⟩
      · intro _ code res
        simp
      · intro hd
        rw [h] at hd
        exact absurd hd (by simp)
  | startSkip code rest hp hc2 =>
      refine ⟨fun _ => ⟨rfl, rfl, rfl⟩, fun hne => hne, hnc, ?_⟩
      intro hd hf
      have hf2 : s.loop = LoopState.finished := hf
      rw [hd] at hf2
      exact absurd hf2 (by simp)
  | startRun code rest hp hc2 =>
      rw [hc] at hc2
      exact absurd hc2 (by simp)
  | finish code hm =>
      refine ⟨fun _ => ⟨rfl, rfl, rfl⟩, fun hne => hne, hnc, ?_⟩
      intro hd hf
      have hf2 : s.loop = LoopState.finished := hf
      rw [hd] at hf2
      exact absurd hf2 (by simp)
  | next code res q hl hq =>
      refine ⟨fun _ => ⟨rfl, rfl, rfl⟩, ?_, hnc, ?_⟩
      · intro _ code2 res2
        simp
      · intro hd
        rw [hl] at hd
        exact absurd hd (by simp)
  | exhaust hl hq hp hi =>
      refine ⟨fun _ => ⟨rfl, rfl, rfl⟩, ?_, hnc, ?_⟩
      · intro _ code res
        simp
      · intro hd hf
        have hf2 : LoopState.drained = LoopState.finished := hf
        exact absurd hf2 (by simp)
  | bodyBreak code res hl hc2 =>
      refine ⟨fun _ => ⟨rfl, rfl, rfl⟩, ?_, hnc, ?_⟩
      · intro _ code2 res2
        simp
      · intro hd hf
        have hf2 : LoopState.drained = LoopState.finished := hf
        exact absurd hf2 (by simp)
  | bodyCheck code res hl hc2 =>
      rw [hc] at hc2
      exact absurd hc2 (by simp)
  | collect code res hl =>
      obtain ⟨hf1, hf2, hf3, hf4⟩ := collectResult_fields s.task res
      refine ⟨?_, ?_, ?_, ?_⟩
      · intro hne
        exact absurd hl (hne code res)
      · intro hne
        exact absurd hl (hne code res)
      · intro hcomp
        have hcomp2 : s.task.status = Status.completed := by
          rw [← hf2]; exact hcomp
        exact hnc hcomp2
      · intro hd
        rw [hl] at hd
        exact absurd hd (by simp)
  | finalize hl =>
      refine ⟨fun _ => ⟨rfl, rfl, rfl⟩, ?_, ?_, ?_⟩
      · intro _ code res
        simp
      · simp [hc]
      · intro _ _
        simp [hc]
  | cancelRequest =>
      by_cases hrun : s.task.status = Status.running
      · have he : (cancelScan s).1 =
            { s with task := { s.task with cancelled := true } } := by
          simp [cancelScan, hrun]
        rw [he]
        refine ⟨fun _ => ⟨rfl, rfl, rfl⟩, fun hne => hne, hnc, ?_⟩
        intro hd hf
        have hf2 : s.loop = LoopState.finished := hf
        rw [hd] at hf2
        exact absurd hf2 (by simp)
      · have he : (cancelScan s).1 = s := by
          simp [cancelScan, hrun]
        rw [he]
        refine ⟨fun _ => ⟨rfl, rfl, rfl⟩, fun hne => hne, hnc, ?_⟩
        intro hd hf
        rw [hd] at hf
        exact absurd hf (by simp)

/-- Witness for the amended C3: from the cancelled mid-state (loop at the
top of `as_completed`, not past a passed check), the in-flight unit's
`finish` step changes no counter, enters no post-check point, and cannot
complete the task. -/
theorem c3_cancel_amended_witness :
    ((∀ code res, c3mid.loop ≠ LoopState.collecting code res) →
      c3mid2.task.processed_count = c3mid.task.processed_count ∧
      c3mid2.task.found_count = c3mid.task.found_count ∧
      c3mid2.task.results = c3mid.task.results) ∧
    ((∀ code res, c3mid.loop ≠ LoopState.collecting code res) →
      ∀ code res, c3mid2.loop ≠ LoopState.collecting code res) ∧
    c3mid2.task.status ≠ Status.completed ∧
    (c3mid.loop = LoopState.drained → c3mid2.loop = LoopState.finished →
      c3mid2.task.status = Status.cancelled) :=
  c3_cancel_amended outcomeFound [stockA] c3mid c3mid2 c3mid_reachable
    (Step.finish c3mid stockA (by decide)) rfl

/-- Claim C5: once a task's status is terminal (`completed`, `cancelled` or
`error`), no subsequent step of the system ever changes the status again,
and `cancel_scan` on such a task changes nothing and reports `False`. -/
theorem c5_terminal_status_frozen
    (outcome : String → Option (List ScanResultItem)) (stocks : List String)
    (s s' : SchedState) (hr : Reaches outcome stocks s)
    (hst : Step outcome stocks s s')
    (ht : s.task.status ≠ Status.running) :
    s'.task.status = s.task.status ∧ cancelScan s = (s, false) := by
  obtain ⟨-, -, -, -, -, h6, -, -⟩ := reaches_inv hr
  have hfin : s.loop = LoopState.finished := h6.mpr ht
  have hcs : cancelScan s = (s, false) := by simp [cancelScan, ht]
  cases hst with
  | submitOk h => rw [h] at hfin; exact absurd hfin (by simp)
  | submitFail msg h => rw [h] at hfin; exact absurd hfin (by simp)
  | startSkip code rest hp hc => exact ⟨rfl, hcs⟩
  | startRun code rest hp hc => exact ⟨rfl, hcs⟩
  | finish code hm => exact ⟨rfl, hcs⟩
  | next code res q hl hq => rw [hl] at hfin; exact absurd hfin (by simp)
  | exhaust hl hq hp hi => rw [hl] at hfin; exact absurd hfin (by simp)
  | bodyBreak code res hl hc => rw [hl] at hfin; exact absurd hfin (by simp)
  | bodyCheck code res hl hc => rw [hl] at hfin; exact absurd hfin (by simp)
  | collect code res hl => rw [hl] at hfin; exact absurd hfin (by simp)
  | finalize hl => rw [hl] at hfin; exact absurd hfin (by simp)
  | cancelRequest => exact ⟨by rw [hcs], hcs⟩

/-- A reachable terminal state with a unit still pending: a two-unit scan
cancelled before any unit ran; the first unit was skipped and discarded,
the task finalized as `cancelled`, the second unit never started. -/
def c5taskDone : TaskMem :=
  { status := Status.cancelled
    total_count := 2
    processed_count := 0
    found_count := 0
    current_stock := none
    results := []
    error_message := none
    cancelled := true }

/-- Wrapper state around `c5taskDone`. -/
def c5term : SchedState :=
  { task := c5taskDone
    pending := [stockB]
    inflight := []
    completedQ := []
    loop := LoopState.finished }

/-- `c5term` is reachable. -/
theorem c5term_reachable : Reaches outNone [stockA, stockB] c5term := by
  have r0 : Reaches outNone [stockA, stockB] (initState [stockA, stockB]) :=
    Reaches.init
  have r1 := Reaches.step r0 (Step.submitOk _ rfl)
  have r2 := Reaches.step r1 (Step.cancelRequest _)
  have r3 := Reaches.step r2 (Step.startSkip _ stockA [stockB] rfl rfl)
  have r4 := Reaches.step r3 (Step.next _ stockA none [] rfl rfl)
  have r5 := Reaches.step r4 (Step.bodyBreak _ stockA none rfl rfl)
  have r6 := Reaches.step r5 (Step.finalize _ rfl)
  exact r6

/-- State of `c5term` after the leftover unit is picked up and skipped. -/
def c5term2 : SchedState :=
  { c5term with pending := [], completedQ := [(stockB, none)] }

/-- Witness for C5: a worker's skip step after the terminal state leaves the
status untouched, and `cancel_scan` on the terminal task is a rejected
no-op. -/
theorem c5_terminal_status_frozen_witness :
    c5term2.task.status = c5term.task.status ∧
    cancelScan c5term = (c5term, false) :=
  c5_terminal_status_frozen outNone [stockA, stockB] c5term c5term2
    c5term_reachable (Step.startSkip c5term stockB [] rfl rfl) (by decide)

/-- Claim C8 (evidence for the code divergence): a task reaches
`completed` only in a state where every submitted unit has been started,
has finished, and has been collected — `pending` and `inflight` are empty
and `processed_count` equals the full unit count. Hence a unit whose engine
call exceeds any bound and never returns keeps the driving loop from ever
completing, and that unit's `processed_count` contribution never happens:
the per-unit timeout of the claim does not exist in the loop's behaviour
(`future.result(timeout=SINGLE_STOCK_TIMEOUT)` is only ever applied to
futures that `as_completed` has already seen finish). -/
theorem c8_completed_requires_every_unit
    (outcome : String → Option (List ScanResultItem)) (stocks : List String)
    (s : SchedState) (hr : Reaches outcome stocks s)
    (hcomp : s.task.status = Status.completed) :
    s.pending = [] ∧ s.inflight = [] ∧
    s.task.processed_count = stocks.length := by
  obtain ⟨h1, h2, h3, h4, h5, h6, h7, h8⟩ := reaches_inv hr
  have hcf : s.task.cancelled = false := h7 hcomp
  have hfin : s.loop = LoopState.finished := h6.mpr (by rw [hcomp]; simp)
  have hzero : unitsLeft s = 0 := h8 hcf (Or.inr hfin)
  have hsum := h5 hcf (by rw [hcomp]; simp) (by rw [hfin]; simp)
  simp only [unitsLeft] at hzero hsum
  refine ⟨?_, ?_, ?_⟩
  · exact List.length_eq_zero.mp (by omega)
  · exact List.length_eq_zero.mp (by omega)
  · omega

/-- The completed one-unit run: submit, start, finish, collect, drain. -/
def c8taskDone : TaskMem :=
  { status := Status.completed
    total_count := 1
    processed_count := 1
    found_count := 1
    current_stock := none
    results := [itemA]
    error_message := none
    cancelled := false }

/-- Wrapper state around `c8taskDone`. -/
def c8done : SchedState :=
  { task := c8taskDone
    pending := []
    inflight := []
    completedQ := []
    loop := LoopState.finished }

/-- `c8done` is reachable; note the unit's full results are contributed at
collection no matter how long its `finish` step took to arrive. -/
theorem c8done_reachable : Reaches outcomeFound [stockA] c8done := by
  have r0 : Reaches outcomeFound [stockA] (initState [stockA]) := Reaches.init
  have r1 := Reaches.step r0 (Step.submitOk _ rfl)
  have r2 := Reaches.step r1 (Step.startRun _ stockA [] rfl rfl)
  have r3 := Reaches.step r2 (Step.finish _ stockA (by decide))
  have r4 := Reaches.step r3 (Step.next _ stockA (some [itemA]) [] rfl rfl)
  have r5 := Reaches.step r4 (Step.bodyCheck _ stockA (some [itemA]) rfl rfl)
  have r5b := Reaches.step r5 (Step.collect _ stockA (some [itemA]) rfl)
  have r6 := Reaches.step r5b (Step.exhaust _ rfl rfl rfl (by decide))
  have r7 := Reaches.step r6 (Step.finalize _ rfl)
  exact r7

/-- Witness for C8 at the completed one-unit run. -/
theorem c8_completed_requires_every_unit_witness :
    c8done.pending = [] ∧ c8done.inflight = [] ∧
    c8done.task.processed_count = 1 :=
  c8_completed_requires_every_unit outcomeFound [stockA] c8done
    c8done_reachable rfl

end ScanServiceModel
